import Mathlib

/-!
Shallow embedding of the core of the Go serverless user service
(pkg/user/user.go, plus the spec-described email validator whose
package is not part of the sources).

Modelling choices, shared by every definition below:

* A DynamoDB attribute map is modelled by `AttrMap`: either the empty
  item a point read returns when no record matches, a well-formed
  stored `User`, or a malformed representation that fails to decode.
* The DynamoDB client (`dynamodbiface.DynamoDBAPI`) is modelled by
  `DynaClient`, a record of response functions for the four primitives
  the code uses (GetItem, Scan, PutItem, DeleteItem).  The Go code
  discards the underlying AWS error and substitutes its own named
  error, so the primitive results are `Except Unit`.
* Each operation returns, besides the values the Go function returns
  (a possibly-nil pointer and a possibly-nil error, modelled literally
  as two `Option`s), the list of store calls it issued, so that
  "performs no store write" style properties are statable.
* The request body is a Go string decoded with `encoding/json`, an
  external library; a request is therefore represented by the outcome
  of that decode (`Except Unit User`) together with the query string
  parameters.
-/

/-- User record, translated from the `User` struct of pkg/user/user.go
(fields Email, FirstName, LastName, all strings). -/
structure User where
  email : String
  firstName : String
  lastName : String
  deriving DecidableEq, Repr

/-- Go error values of pkg/user/user.go (the `Error...` string variables),
as a closed enumeration; `UserError.message` recovers the exact strings. -/
inductive UserError where
  | failedToFetchRecord
  | failedToUnmarshalRecord
  | invalidUserData
  | invalidEmail
  | marshalItem
  | deleteItem
  | dynamoPutItem
  | userAlreadyExists
  | userDoesNotExists
  deriving DecidableEq, Repr

/-- Exact message strings of the Go error variables. -/
def UserError.message : UserError → String
  | .failedToFetchRecord => "failed to fetch record"
  | .failedToUnmarshalRecord => "failed to unmarshal record"
  | .invalidUserData => "invalid user data"
  | .invalidEmail => "invalid email"
  | .marshalItem => "could not marshal item"
  | .deleteItem => "could not delete item"
  | .dynamoPutItem => "could not dynamo put item"
  | .userAlreadyExists => "user already exists"
  | .userDoesNotExists => "user does not exists"

/-- Stored representation of an item (a DynamoDB attribute map): the
empty item returned by a point read with no matching record, a
well-formed stored user record, or a malformed representation on which
`dynamodbattribute.UnmarshalMap` fails. -/
inductive AttrMap where
  | empty
  | user (u : User)
  | malformed
  deriving DecidableEq, Repr

/-- dynamodbattribute.UnmarshalMap into a `User` target: the empty item
leaves the freshly allocated zero-valued User untouched, a stored
record is recovered, a malformed representation errors. -/
def UnmarshalMap : AttrMap → Except Unit User
  | AttrMap.empty => Except.ok ⟨"", "", ""⟩
  | AttrMap.user u => Except.ok u
  | AttrMap.malformed => Except.error ()

/-- dynamodbattribute.MarshalMap on a `User`: marshalling a struct of
three plain string fields cannot fail in the Go SDK, so it always
produces the well-formed stored representation (the error branch of
the callers is kept, mirroring the Go code, but is unreachable). -/
def MarshalMap (u : User) : Except Unit AttrMap :=
  Except.ok (AttrMap.user u)

/-- dynamodbattribute.UnmarshalListOfMaps into a `[]User` target:
element-wise UnmarshalMap, failing if any element fails. -/
def UnmarshalListOfMaps : List AttrMap → Except Unit (List User)
  | [] => Except.ok []
  | raw :: rest =>
    match UnmarshalMap raw, UnmarshalListOfMaps rest with
    | Except.ok u, Except.ok us => Except.ok (u :: us)
    | _, _ => Except.error ()

/-- Store calls the code can issue, each recording the arguments that
the corresponding `dynamodb.*Input` carries. -/
inductive StoreOp where
  | get (key tableName : String)
  | scanTable (tableName : String)
  | put (item : AttrMap) (tableName : String)
  | delete (key tableName : String)
  deriving DecidableEq, Repr

/-- Model of `dynamodbiface.DynamoDBAPI` restricted to the four
primitives the code uses, as response functions.  The Go code never
inspects the underlying AWS error, so failures carry no data. -/
structure DynaClient where
  getResp : String → String → Except Unit AttrMap
  scanResp : String → Except Unit (List AttrMap)
  putResp : AttrMap → String → Except Unit Unit
  deleteResp : String → String → Except Unit Unit

/-- Return shape of the Go functions `(*T, error)`, modelled literally
as two options (a nil pointer is `none`, a nil error is `none`),
together with the list of store calls issued during the operation. -/
structure GoResult (α : Type) where
  val : Option α
  err : Option UserError
  trace : List StoreOp
  deriving DecidableEq, Repr

/-- Model of `events.APIGatewayProxyRequest` restricted to the fields
the code reads: `body` is the outcome of `json.Unmarshal` of the Go
string body into a `User` (encoding/json is external to the repo), and
`queryStringParameters` is the query map as an association list. -/
structure APIGatewayProxyRequest where
  body : Except Unit User
  queryStringParameters : List (String × String)

/-- Go map indexing `m["k"]`, which yields the zero value (the empty
string) when the key is absent. -/
def mapIndex : List (String × String) → String → String
  | [], _ => ""
  | (k, v) :: rest, key => if k = key then v else mapIndex rest key

/-- Modelled from the spec: the Field Validator package
(pkg/validators, function IsEmailValid) is not among the sources; the
spec describes it as a pure predicate that is true iff the candidate
has the shape localpart "@" domain "." tld with non-empty localpart
and domain and an alphabetic TLD of at least two letters.
`tldOk t` checks the TLD part: alphabetic, length at least two. -/
def tldOk (t : List Char) : Bool :=
  t.all Char.isAlpha && decide (2 ≤ t.length)

/-- Modelled from the spec: `dotSplitOk cs` decides whether `cs` can be
split, around some dot character, into a prefix d (possibly empty) and
a suffix t with `tldOk t`. -/
def dotSplitOk : List Char → Bool
  | [] => false
  | c :: rest => (c == '.' && tldOk rest) || dotSplitOk rest

/-- Modelled from the spec: `domainOk cs` decides whether `cs` has the
shape domain "." tld with non-empty domain and a valid TLD. -/
def domainOk : List Char → Bool
  | [] => false
  | _ :: rest => dotSplitOk rest

/-- Modelled from the spec: `atSplitOk cs` decides whether `cs` can be
split as `l ++ [at-sign] ++ r` (l possibly empty) with `domainOk r`. -/
def atSplitOk : List Char → Bool
  | [] => false
  | c :: rest => (c == '@' && domainOk rest) || atSplitOk rest

/-- Modelled from the spec: the email shape check on character lists;
the first character must belong to a non-empty local part. -/
def emailChars : List Char → Bool
  | [] => false
  | _ :: rest => atSplitOk rest

/-- Modelled from the spec: `IsEmailValid` of the missing
pkg/validators package.  True iff the candidate matches
localpart "@" domain "." tld with non-empty localpart and domain and
an alphabetic TLD of at least two letters.  Pure and deterministic by
construction (a Lean function of the string alone). -/
def IsEmailValid (candidate : String) : Bool :=
  emailChars candidate.toList

/-- Specification-side statement of the email shape, used to state the
validator claim: some decomposition of the string into
localpart "@" domain "." tld satisfies the side conditions. -/
def EmailShape (s : String) : Prop :=
  ∃ l d t : List Char,
    s.toList = l ++ '@' :: (d ++ '.' :: t) ∧
    l ≠ [] ∧ d ≠ [] ∧ t.all Char.isAlpha = true ∧ 2 ≤ t.length

/-- FetchUser of pkg/user/user.go: point read by email key, classifying
the failure as failed-to-fetch (store error) or failed-to-unmarshal
(decode error). -/
def FetchUser (email tableName : String) (dynaClient : DynaClient) :
    GoResult User :=
  match dynaClient.getResp email tableName with
  | Except.error _ =>
    ⟨none, some UserError.failedToFetchRecord, [StoreOp.get email tableName]⟩
  | Except.ok raw =>
    match UnmarshalMap raw with
    | Except.error _ =>
      ⟨none, some UserError.failedToUnmarshalRecord, [StoreOp.get email tableName]⟩
    | Except.ok item =>
      ⟨some item, none, [StoreOp.get email tableName]⟩

/-- FetchUsers of pkg/user/user.go: unfiltered scan of the table with
the same failure classification applied to the bulk result. -/
def FetchUsers (tableName : String) (dynaClient : DynaClient) :
    GoResult (List User) :=
  match dynaClient.scanResp tableName with
  | Except.error _ =>
    ⟨none, some UserError.failedToFetchRecord, [StoreOp.scanTable tableName]⟩
  | Except.ok items =>
    match UnmarshalListOfMaps items with
    | Except.error _ =>
      ⟨none, some UserError.failedToUnmarshalRecord, [StoreOp.scanTable tableName]⟩
    | Except.ok users =>
      ⟨some users, none, [StoreOp.scanTable tableName]⟩

/-- Existence test of CreateUser, line for line:
`curruser != nil && len(curruser.Email) != 0` where `curruser` is the
first return of FetchUser (nil exactly when FetchUser errored). -/
def alreadyExistsCheck : Option User → Bool
  | some curruser => curruser.email.length != 0
  | none => false

/-- Existence test of UpdateUser, line for line:
`curruser != nil && len(curruser.Email) == 0`. -/
def doesNotExistCheck : Option User → Bool
  | some curruser => curruser.email.length == 0
  | none => false

/-- Shared tail of CreateUser and UpdateUser (the two Go functions
duplicate this block verbatim): marshal the decoded record, build the
PutItemInput carrying the real table name, issue PutItem, classify a
write failure as could-not-dynamo-put-item, and on success return the
decoded record.  `tr` is the trace accumulated before the write. -/
def putFlow (u : User) (tr : List StoreOp) (tableName : String)
    (dynaClient : DynaClient) : GoResult User :=
  match MarshalMap u with
  | Except.error _ => ⟨none, some UserError.marshalItem, tr⟩
  | Except.ok attrVal =>
    match dynaClient.putResp attrVal tableName with
    | Except.error _ =>
      ⟨none, some UserError.dynamoPutItem, tr ++ [StoreOp.put attrVal tableName]⟩
    | Except.ok _ =>
      ⟨some u, none, tr ++ [StoreOp.put attrVal tableName]⟩

/-- CreateUser of pkg/user/user.go: decode the body, validate the
email, run the existence check (whose error, if any, is discarded by
`curruser, _ := FetchUser(...)`), then marshal and put.  The Go code
binds the FetchUser result to a local once; the model repeats the pure
call, whose value is identical. -/
def CreateUser (req : APIGatewayProxyRequest) (tableName : String)
    (dynaClient : DynaClient) : GoResult User :=
  match req.body with
  | Except.error _ => ⟨none, some UserError.invalidUserData, []⟩
  | Except.ok createuser =>
    if !(IsEmailValid createuser.email) then
      ⟨none, some UserError.invalidEmail, []⟩
    else
      if alreadyExistsCheck (FetchUser createuser.email tableName dynaClient).val then
        ⟨none, some UserError.userAlreadyExists,
          (FetchUser createuser.email tableName dynaClient).trace⟩
      else
        putFlow createuser (FetchUser createuser.email tableName dynaClient).trace
          tableName dynaClient

/-- UpdateUser of pkg/user/user.go: decode the body, run the inverted
existence check (fetch error again discarded), then marshal and put.
No field-level validation is performed. -/
def UpdateUser (req : APIGatewayProxyRequest) (tableName : String)
    (dynaClient : DynaClient) : GoResult User :=
  match req.body with
  | Except.error _ => ⟨none, some UserError.invalidUserData, []⟩
  | Except.ok updateuser =>
    if doesNotExistCheck (FetchUser updateuser.email tableName dynaClient).val then
      ⟨none, some UserError.userDoesNotExists,
        (FetchUser updateuser.email tableName dynaClient).trace⟩
    else
      putFlow updateuser (FetchUser updateuser.email tableName dynaClient).trace
        tableName dynaClient

/-- DeleteUser of pkg/user/user.go: the key comes from the query
string parameters; the DeleteItemInput sets
`TableName: new(string)` - a pointer to a freshly allocated zero
value, i.e. the empty string - rather than the `tableName` argument,
which is never read.  Returns the Go error (none on success) and the
issued store call. -/
def DeleteUser (req : APIGatewayProxyRequest) (tableName : String)
    (dynaClient : DynaClient) : Option UserError × List StoreOp :=
  let email := mapIndex req.queryStringParameters "email"
  match dynaClient.deleteResp email "" with
  | Except.error _ => (some UserError.deleteItem, [StoreOp.delete email ""])
  | Except.ok _ => (none, [StoreOp.delete email ""])

/-- Effect of one store call on an abstract table state (a map from
email key to stored record).  Reads change nothing; a put of a
well-formed record overwrites the record at its email key
(unconditional-put semantics); a delete removes the key.  The code
only ever puts well-formed records, so the other put shapes are
vacuous. -/
def applyOp (db : String → Option User) : StoreOp → (String → Option User)
  | StoreOp.put (AttrMap.user u) _ => fun k => if k = u.email then some u else db k
  | StoreOp.delete key _ => fun k => if k = key then none else db k
  | _ => db

/-- Apply a trace of store calls to a table state, in order. -/
def runOps (db : String → Option User) : List StoreOp → (String → Option User)
  | [] => db
  | op :: rest => runOps (applyOp db op) rest

/-- Honest store model over a table state: point reads return the
stored record, or the empty item when the key is absent; writes and
deletes are acknowledged (their effect on the state is `applyOp`). -/
def honestClient (db : String → Option User) : DynaClient where
  getResp := fun key _ =>
    Except.ok (match db key with
      | some u => AttrMap.user u
      | none => AttrMap.empty)
  scanResp := fun _ => Except.ok []
  putResp := fun _ _ => Except.ok ()
  deleteResp := fun _ _ => Except.ok ()

/-- Outcome exclusivity predicate for the Go `(*T, error)` pairs: a
non-nil result with a nil error, or a nil result with a non-nil
error. -/
def goOk {α : Type} (r : GoResult α) : Prop :=
  (r.val.isSome = true ∧ r.err = none) ∨ (r.val = none ∧ r.err.isSome = true)

/-- Concrete user record used by test instances. -/
def sampleUser : User := ⟨"a@b.co", "A", "B"⟩

/-- Request whose body decodes to `sampleUser`. -/
def sampleReq : APIGatewayProxyRequest := ⟨Except.ok sampleUser, []⟩

/-- Request whose body decodes to a user whose email fails validation. -/
def badEmailReq : APIGatewayProxyRequest :=
  ⟨Except.ok ⟨"not-an-email", "", ""⟩, []⟩

/-- Request carrying only a query string parameter, as a DELETE does. -/
def deleteReq : APIGatewayProxyRequest :=
  ⟨Except.error (), [("email", "x@y.co")]⟩

/-- Client whose point reads fail at the store level. -/
def getFailClient : DynaClient where
  getResp := fun _ _ => Except.error ()
  scanResp := fun _ => Except.error ()
  putResp := fun _ _ => Except.ok ()
  deleteResp := fun _ _ => Except.ok ()

/-- Client whose point reads return a malformed stored representation. -/
def malformedClient : DynaClient where
  getResp := fun _ _ => Except.ok AttrMap.malformed
  scanResp := fun _ => Except.ok [AttrMap.malformed]
  putResp := fun _ _ => Except.ok ()
  deleteResp := fun _ _ => Except.ok ()

/-- Empty table state. -/
def emptyDb : String → Option User := fun _ => none

/-- Table state after a first successful Create of `sampleUser` against
the empty honest store. -/
def dbAfterCreate : String → Option User :=
  runOps emptyDb (CreateUser sampleReq "go-serverless" (honestClient emptyDb)).trace

/-! Helper lemmas. -/

theorem tldOk_iff (t : List Char) :
    tldOk t = true ↔ t.all Char.isAlpha = true ∧ 2 ≤ t.length := by
  simp [tldOk]

theorem dotSplitOk_iff (cs : List Char) :
    dotSplitOk cs = true ↔ ∃ d t, cs = d ++ '.' :: t ∧ tldOk t = true := by
  induction cs with
  | nil =>
    constructor
    · intro h
      simp [dotSplitOk] at h
    · rintro ⟨d, t, h, -⟩
      simp at h
  | cons c rest ih =>
    constructor
    · intro h
      simp only [dotSplitOk, Bool.or_eq_true, Bool.and_eq_true, beq_iff_eq] at h
      rcases h with ⟨rfl, ht⟩ | h
      · exact ⟨[], rest, rfl, ht⟩
      · obtain ⟨d, t, rfl, ht⟩ := ih.mp h
        exact ⟨c :: d, t, rfl, ht⟩
    · rintro ⟨d, t, heq, ht⟩
      simp only [dotSplitOk, Bool.or_eq_true, Bool.and_eq_true, beq_iff_eq]
      cases d with
      | nil =>
        rw [List.nil_append] at heq
        injection heq with h1 h2
        exact Or.inl ⟨h1, by rw [h2]; exact ht⟩
      | cons d0 drest =>
        rw [List.cons_append] at heq
        injection heq with h1 h2
        exact Or.inr (ih.mpr ⟨drest, t, h2, ht⟩)

theorem domainOk_iff (cs : List Char) :
    domainOk cs = true ↔ ∃ d t, cs = d ++ '.' :: t ∧ d ≠ [] ∧ tldOk t = true := by
  cases cs with
  | nil =>
    constructor
    · intro h
      simp [domainOk] at h
    · rintro ⟨d, t, h, -, -⟩
      simp at h
  | cons c rest =>
    simp only [domainOk]
    rw [dotSplitOk_iff]
    constructor
    · rintro ⟨d1, t, rfl, ht⟩
      exact ⟨c :: d1, t, rfl, List.cons_ne_nil _ _, ht⟩
    · rintro ⟨d, t, heq, hd, ht⟩
      cases d with
      | nil => exact absurd rfl hd
      | cons d0 drest =>
        rw [List.cons_append] at heq
        injection heq with h1 h2
        exact ⟨drest, t, h2, ht⟩

theorem atSplitOk_iff (cs : List Char) :
    atSplitOk cs = true ↔ ∃ l r, cs = l ++ '@' :: r ∧ domainOk r = true := by
  induction cs with
  | nil =>
    constructor
    · intro h
      simp [atSplitOk] at h
    · rintro ⟨l, r, h, -⟩
      simp at h
  | cons c rest ih =>
    constructor
    · intro h
      simp only [atSplitOk, Bool.or_eq_true, Bool.and_eq_true, beq_iff_eq] at h
      rcases h with ⟨rfl, hr⟩ | h
      · exact ⟨[], rest, rfl, hr⟩
      · obtain ⟨l, r, rfl, hr⟩ := ih.mp h
        exact ⟨c :: l, r, rfl, hr⟩
    · rintro ⟨l, r, heq, hr⟩
      simp only [atSplitOk, Bool.or_eq_true, Bool.and_eq_true, beq_iff_eq]
      cases l with
      | nil =>
        rw [List.nil_append] at heq
        injection heq with h1 h2
        exact Or.inl ⟨h1, by rw [h2]; exact hr⟩
      | cons l0 lrest =>
        rw [List.cons_append] at heq
        injection heq with h1 h2
        exact Or.inr (ih.mpr ⟨lrest, r, h2, hr⟩)

theorem emailChars_iff (cs : List Char) :
    emailChars cs = true ↔
      ∃ l d t, cs = l ++ '@' :: (d ++ '.' :: t) ∧ l ≠ [] ∧ d ≠ [] ∧
        t.all Char.isAlpha = true ∧ 2 ≤ t.length := by
  cases cs with
  | nil =>
    constructor
    · intro h
      simp [emailChars] at h
    · rintro ⟨l, d, t, h, -, -, -, -⟩
      simp at h
  | cons c rest =>
    simp only [emailChars]
    rw [atSplitOk_iff]
    constructor
    · rintro ⟨l1, r, rfl, hr⟩
      obtain ⟨d, t, rfl, hd, ht⟩ := (domainOk_iff r).mp hr
      obtain ⟨ht1, ht2⟩ := (tldOk_iff t).mp ht
      exact ⟨c :: l1, d, t, rfl, List.cons_ne_nil _ _, hd, ht1, ht2⟩
    · rintro ⟨l, d, t, heq, hl, hd, hta, htl⟩
      cases l with
      | nil => exact absurd rfl hl
      | cons l0 lrest =>
        rw [List.cons_append] at heq
        injection heq with h1 h2
        exact ⟨lrest, d ++ '.' :: t, h2,
          (domainOk_iff _).mpr ⟨d, t, rfl, hd, (tldOk_iff t).mpr ⟨hta, htl⟩⟩⟩

theorem fetchUser_trace (email tableName : String) (c : DynaClient) :
    (FetchUser email tableName c).trace = [StoreOp.get email tableName] := by
  unfold FetchUser
  split
  · rfl
  · split <;> rfl

theorem fetchUser_goOk (email tableName : String) (c : DynaClient) :
    goOk (FetchUser email tableName c) := by
  unfold FetchUser
  split
  · exact Or.inr ⟨rfl, rfl⟩
  · split
    · exact Or.inr ⟨rfl, rfl⟩
    · exact Or.inl ⟨rfl, rfl⟩

theorem fetchUser_val_of_err (email tableName : String) (c : DynaClient)
    (e : UserError) (h : (FetchUser email tableName c).err = some e) :
    (FetchUser email tableName c).val = none := by
  rcases fetchUser_goOk email tableName c with ⟨-, h2⟩ | ⟨h1, -⟩
  · rw [h2] at h
    cases h
  · exact h1

theorem putFlow_run (u : User) (tr : List StoreOp) (tableName : String)
    (c : DynaClient) :
    (putFlow u tr tableName c).trace = tr ++ [StoreOp.put (AttrMap.user u) tableName] ∧
    ((putFlow u tr tableName c).err = none ∨
      (putFlow u tr tableName c).err = some UserError.dynamoPutItem) := by
  unfold putFlow
  split
  · next heq => simp [MarshalMap] at heq
  · next attrVal heq =>
    rw [MarshalMap] at heq
    injection heq with heq2
    subst heq2
    split
    · exact ⟨rfl, Or.inr rfl⟩
    · exact ⟨rfl, Or.inl rfl⟩

theorem putFlow_goOk (u : User) (tr : List StoreOp) (tableName : String)
    (c : DynaClient) : goOk (putFlow u tr tableName c) := by
  unfold putFlow
  split
  · exact Or.inr ⟨rfl, rfl⟩
  · split
    · exact Or.inr ⟨rfl, rfl⟩
    · exact Or.inl ⟨rfl, rfl⟩

theorem putFlow_err_ne_invalidEmail (u : User) (tr : List StoreOp)
    (tableName : String) (c : DynaClient) :
    (putFlow u tr tableName c).err ≠ some UserError.invalidEmail := by
  rcases (putFlow_run u tr tableName c).2 with h | h <;> rw [h] <;> intro hc
  · cases hc
  · injection hc with h2
    cases h2

theorem fetchUsers_goOk (tableName : String) (c : DynaClient) :
    goOk (FetchUsers tableName c) := by
  unfold FetchUsers
  split
  · exact Or.inr ⟨rfl, rfl⟩
  · split
    · exact Or.inr ⟨rfl, rfl⟩
    · exact Or.inl ⟨rfl, rfl⟩

theorem createUser_goOk (req : APIGatewayProxyRequest) (tableName : String)
    (c : DynaClient) : goOk (CreateUser req tableName c) := by
  unfold CreateUser
  split
  · exact Or.inr ⟨rfl, rfl⟩
  · split
    · exact Or.inr ⟨rfl, rfl⟩
    · split
      · exact Or.inr ⟨rfl, rfl⟩
      · exact putFlow_goOk _ _ _ _

theorem updateUser_goOk (req : APIGatewayProxyRequest) (tableName : String)
    (c : DynaClient) : goOk (UpdateUser req tableName c) := by
  unfold UpdateUser
  split
  · exact Or.inr ⟨rfl, rfl⟩
  · split
    · exact Or.inr ⟨rfl, rfl⟩
    · exact putFlow_goOk _ _ _ _

theorem fetchUser_honest_absent (db : String → Option User) (key tableName : String)
    (h : db key = none) :
    FetchUser key tableName (honestClient db) =
      ⟨some ⟨"", "", ""⟩, none, [StoreOp.get key tableName]⟩ := by
  unfold FetchUser honestClient
  simp [h, UnmarshalMap]

theorem fetchUser_honest_present (db : String → Option User) (key tableName : String)
    (u : User) (h : db key = some u) :
    FetchUser key tableName (honestClient db) =
      ⟨some u, none, [StoreOp.get key tableName]⟩ := by
  unfold FetchUser honestClient
  simp [h, UnmarshalMap]

/-! Claim theorems. -/

/-- Claim C9: for all strings s, IsEmailValid s is true iff s matches
the shape localpart at-sign domain dot tld with non-empty local part
and domain and an alphabetic TLD of at least two letters; in
particular it is false when the at-sign or the dot is missing (and,
via the shape, when the local part or the domain is empty).
Determinism and absence of side effects hold by construction, the
model being a pure function of the string. -/
theorem isEmailValid_matches_shape (s : String) :
    (IsEmailValid s = true ↔ EmailShape s) ∧
    ('@' ∉ s.toList → IsEmailValid s = false) ∧
    ('.' ∉ s.toList → IsEmailValid s = false) := by
  have hiff : IsEmailValid s = true ↔ EmailShape s := emailChars_iff s.toList
  refine ⟨hiff, ?_, ?_⟩
  · intro hnot
    cases hv : IsEmailValid s with
    | false => rfl
    | true =>
      obtain ⟨l, d, t, heq, -, -, -, -⟩ := hiff.mp hv
      refine absurd ?_ hnot
      rw [heq]
      simp
  · intro hnot
    cases hv : IsEmailValid s with
    | false => rfl
    | true =>
      obtain ⟨l, d, t, heq, -, -, -, -⟩ := hiff.mp hv
      refine absurd ?_ hnot
      rw [heq]
      simp

/-- Witness for C9 at concrete inputs: a valid address is accepted via
the shape direction, and addresses missing the at-sign or the dot are
rejected. -/
theorem isEmailValid_matches_shape_witness :
    IsEmailValid "a@b.co" = true ∧ IsEmailValid "ab.co" = false ∧
    IsEmailValid "a@bco" = false :=
  ⟨(isEmailValid_matches_shape "a@b.co").1.mpr
      ⟨['a'], ['b'], ['c', 'o'], by decide, by decide, by decide, by decide,
        by decide⟩,
    (isEmailValid_matches_shape "ab.co").2.1 (by decide),
    (isEmailValid_matches_shape "a@bco").2.2 (by decide)⟩

/-- Claim C6: FetchUser reports failed-to-fetch exactly when the
store's point read fails, reports failed-to-unmarshal exactly when
decoding the stored representation fails, and on a successful read
with no matching record (the empty item) returns, with a nil error, a
User whose email field is empty. -/
theorem fetchUser_error_classification (email tableName : String) (c : DynaClient) :
    ((FetchUser email tableName c).err = some UserError.failedToFetchRecord ↔
      c.getResp email tableName = Except.error ()) ∧
    ((FetchUser email tableName c).err = some UserError.failedToUnmarshalRecord ↔
      ∃ raw, c.getResp email tableName = Except.ok raw ∧
        UnmarshalMap raw = Except.error ()) ∧
    (c.getResp email tableName = Except.ok AttrMap.empty →
      FetchUser email tableName c =
        ⟨some ⟨"", "", ""⟩, none, [StoreOp.get email tableName]⟩) := by
  unfold FetchUser
  cases hg : c.getResp email tableName with
  | error e =>
    cases e
    simp only []
    refine ⟨by simp, by simp, fun h => ?_⟩
    cases h
  | ok raw =>
    simp only []
    cases hu : UnmarshalMap raw with
    | error e =>
      cases e
      simp only []
      refine ⟨by simp, ⟨fun _ => ⟨raw, rfl, hu⟩, fun _ => by trivial⟩, fun h => ?_⟩
      injection h with h2
      subst h2
      have hu2 : Except.ok (⟨"", "", ""⟩ : User) = Except.error () := hu
      cases hu2
    | ok item =>
      simp only []
      refine ⟨by simp, ⟨fun hc => ?_, ?_⟩, fun h => ?_⟩
      · cases hc
      · rintro ⟨raw2, hok, hbad⟩
        injection hok with h2
        subst h2
        rw [hu] at hbad
        cases hbad
      · injection h with h2
        subst h2
        have hu2 : Except.ok (⟨"", "", ""⟩ : User) = Except.ok item := hu
        injection hu2 with h3
        rw [← h3]

/-- Witness for C6 at concrete clients: a failing point read, a
malformed stored representation, and an honest read of an absent
record. -/
theorem fetchUser_error_classification_witness :
    (FetchUser "a@b.co" "go-serverless" getFailClient).err =
      some UserError.failedToFetchRecord ∧
    (FetchUser "a@b.co" "go-serverless" malformedClient).err =
      some UserError.failedToUnmarshalRecord ∧
    FetchUser "a@b.co" "go-serverless" (honestClient emptyDb) =
      ⟨some ⟨"", "", ""⟩, none, [StoreOp.get "a@b.co" "go-serverless"]⟩ :=
  ⟨(fetchUser_error_classification "a@b.co" "go-serverless" getFailClient).1.mpr rfl,
    (fetchUser_error_classification "a@b.co" "go-serverless" malformedClient).2.1.mpr
      ⟨AttrMap.malformed, rfl, rfl⟩,
    (fetchUser_error_classification "a@b.co" "go-serverless"
      (honestClient emptyDb)).2.2 rfl⟩

/-- Claim C10: FetchUser, FetchUsers, CreateUser and UpdateUser each
return exactly one of a non-nil result with a nil error or a nil
result with a non-nil error; in particular a nil error from FetchUser
always comes with a usable (non-nil) User, so absence is signalled
only through the empty-email convention. -/
theorem result_error_exclusivity (req : APIGatewayProxyRequest)
    (email tableName : String) (c : DynaClient) :
    goOk (FetchUser email tableName c) ∧ goOk (FetchUsers tableName c) ∧
    goOk (CreateUser req tableName c) ∧ goOk (UpdateUser req tableName c) :=
  ⟨fetchUser_goOk email tableName c, fetchUsers_goOk tableName c,
    createUser_goOk req tableName c, updateUser_goOk req tableName c⟩

/-- Claim C8: UpdateUser performs no field-level validation: it never
returns the invalid-email error, whatever the decoded email is (for
bodies that fail to decode the result is invalid-user-data, also not
invalid-email). -/
theorem updateUser_never_invalid_email (req : APIGatewayProxyRequest)
    (tableName : String) (c : DynaClient) :
    (UpdateUser req tableName c).err ≠ some UserError.invalidEmail := by
  unfold UpdateUser
  split
  · intro hc
    injection hc with h2
    cases h2
  · split
    · intro hc
      injection hc with h2
      cases h2
    · exact putFlow_err_ne_invalidEmail _ _ _ _

/-- Witness for C8: a request whose body decodes to an invalid email
still does not produce the invalid-email error from UpdateUser. -/
theorem updateUser_never_invalid_email_witness :
    (UpdateUser badEmailReq "go-serverless" (honestClient emptyDb)).err ≠
      some UserError.invalidEmail :=
  updateUser_never_invalid_email badEmailReq "go-serverless" (honestClient emptyDb)

/-- Claim C1 (code bug): DeleteUser does not pass the tableName
argument to the store; the DeleteItemInput it sends carries the empty
string (Go `new(string)`), so a call with the real table name
"go-serverless" issues a delete against the empty table identifier. -/
theorem deleteUser_sends_empty_table :
    DeleteUser deleteReq "go-serverless" (honestClient emptyDb) =
      (none, [StoreOp.delete "x@y.co" ""]) ∧
    StoreOp.delete "x@y.co" "go-serverless" ∉
      (DeleteUser deleteReq "go-serverless" (honestClient emptyDb)).2 := by
  constructor
  · rfl
  · decide

/-- Claim C2: when the body decodes and the existence-check fetch
inside CreateUser (email valid) or UpdateUser itself returns a
store-level error, that error is not surfaced: the nil `curruser`
makes both existence tests false, and the operation proceeds to encode
and write the record (its outcome is then that of the put alone). -/
theorem create_update_swallow_fetch_error (req : APIGatewayProxyRequest)
    (tableName : String) (c : DynaClient) (u : User)
    (hb : req.body = Except.ok u)
    (hf : ∃ e, (FetchUser u.email tableName c).err = some e) :
    (IsEmailValid u.email = true →
      CreateUser req tableName c =
        putFlow u [StoreOp.get u.email tableName] tableName c ∧
      (CreateUser req tableName c).trace =
        [StoreOp.get u.email tableName, StoreOp.put (AttrMap.user u) tableName] ∧
      ((CreateUser req tableName c).err = none ∨
        (CreateUser req tableName c).err = some UserError.dynamoPutItem)) ∧
    (UpdateUser req tableName c =
        putFlow u [StoreOp.get u.email tableName] tableName c ∧
      (UpdateUser req tableName c).trace =
        [StoreOp.get u.email tableName, StoreOp.put (AttrMap.user u) tableName] ∧
      ((UpdateUser req tableName c).err = none ∨
        (UpdateUser req tableName c).err = some UserError.dynamoPutItem)) := by
  obtain ⟨e, he⟩ := hf
  have hval : (FetchUser u.email tableName c).val = none :=
    fetchUser_val_of_err u.email tableName c e he
  constructor
  · intro hv
    have hmain : CreateUser req tableName c =
        putFlow u (FetchUser u.email tableName c).trace tableName c := by
      unfold CreateUser
      rw [hb]
      simp [hv, hval, alreadyExistsCheck]
    rw [fetchUser_trace] at hmain
    refine ⟨hmain, ?_, ?_⟩
    · rw [hmain]
      exact (putFlow_run u _ tableName c).1
    · rw [hmain]
      exact (putFlow_run u _ tableName c).2
  · have hmain : UpdateUser req tableName c =
        putFlow u (FetchUser u.email tableName c).trace tableName c := by
      unfold UpdateUser
      rw [hb]
      simp [hval, doesNotExistCheck]
    rw [fetchUser_trace] at hmain
    refine ⟨hmain, ?_, ?_⟩
    · rw [hmain]
      exact (putFlow_run u _ tableName c).1
    · rw [hmain]
      exact (putFlow_run u _ tableName c).2

/-- Witness for C2: against a client whose point reads fail, Create
and Update on a decodable body still reach the put. -/
theorem create_update_swallow_fetch_error_witness :
    CreateUser sampleReq "go-serverless" getFailClient =
      putFlow sampleUser [StoreOp.get "a@b.co" "go-serverless"] "go-serverless"
        getFailClient ∧
    (UpdateUser sampleReq "go-serverless" getFailClient).trace =
      [StoreOp.get "a@b.co" "go-serverless",
        StoreOp.put (AttrMap.user sampleUser) "go-serverless"] := by
  have h := create_update_swallow_fetch_error sampleReq "go-serverless" getFailClient
    sampleUser rfl ⟨UserError.failedToFetchRecord, rfl⟩
  exact ⟨(h.1 (by decide)).1, h.2.2.1⟩

/-- Claim C3: on a decodable body with a valid email, when the
existence-check fetch succeeds (non-nil curruser) and the returned
record has a non-empty email, CreateUser fails with
user-already-exists, issues no store write, and leaves any table state
unchanged. -/
theorem createUser_already_exists (req : APIGatewayProxyRequest)
    (tableName : String) (c : DynaClient) (u cur : User)
    (hb : req.body = Except.ok u) (hv : IsEmailValid u.email = true)
    (hf : (FetchUser u.email tableName c).val = some cur)
    (he : cur.email.length ≠ 0) :
    CreateUser req tableName c =
      ⟨none, some UserError.userAlreadyExists, [StoreOp.get u.email tableName]⟩ ∧
    ∀ db : String → Option User, runOps db (CreateUser req tableName c).trace = db := by
  have hchk : alreadyExistsCheck (FetchUser u.email tableName c).val = true := by
    rw [hf]
    simp only [alreadyExistsCheck, bne_iff_ne, ne_eq]
    exact he
  have hmain : CreateUser req tableName c =
      ⟨none, some UserError.userAlreadyExists, [StoreOp.get u.email tableName]⟩ := by
    unfold CreateUser
    rw [hb]
    simp [hv, hchk, fetchUser_trace]
  refine ⟨hmain, fun db => ?_⟩
  rw [hmain]
  rfl

/-- Witness for C3, realizing the second half of the claim: after a
first successful Create of `sampleUser` against the empty honest
store, a second Create with the same body fails with
user-already-exists (its fetch succeeds and reports existence). -/
theorem createUser_already_exists_witness :
    CreateUser sampleReq "go-serverless" (honestClient dbAfterCreate) =
      ⟨none, some UserError.userAlreadyExists,
        [StoreOp.get "a@b.co" "go-serverless"]⟩ :=
  (createUser_already_exists sampleReq "go-serverless" (honestClient dbAfterCreate)
    sampleUser sampleUser rfl (by decide) (by decide) (by decide)).1

/-- Claim C4: on a decodable body, when the precondition fetch in
UpdateUser succeeds and the returned record's email is empty (the
record-absent convention), UpdateUser fails with user-does-not-exist,
issues no store write, and leaves any table state unchanged. -/
theorem updateUser_does_not_exist (req : APIGatewayProxyRequest)
    (tableName : String) (c : DynaClient) (u cur : User)
    (hb : req.body = Except.ok u)
    (hf : (FetchUser u.email tableName c).val = some cur)
    (he : cur.email = "") :
    UpdateUser req tableName c =
      ⟨none, some UserError.userDoesNotExists, [StoreOp.get u.email tableName]⟩ ∧
    ∀ db : String → Option User, runOps db (UpdateUser req tableName c).trace = db := by
  have hchk : doesNotExistCheck (FetchUser u.email tableName c).val = true := by
    rw [hf]
    simp [doesNotExistCheck, he]
  have hmain : UpdateUser req tableName c =
      ⟨none, some UserError.userDoesNotExists, [StoreOp.get u.email tableName]⟩ := by
    unfold UpdateUser
    rw [hb]
    simp [hchk, fetchUser_trace]
  refine ⟨hmain, fun db => ?_⟩
  rw [hmain]
  rfl

/-- Witness for C4: Update against the empty honest store (fetch
succeeds, decodes to the zero-valued record with empty email) fails
with user-does-not-exist and performs no write. -/
theorem updateUser_does_not_exist_witness :
    UpdateUser sampleReq "go-serverless" (honestClient emptyDb) =
      ⟨none, some UserError.userDoesNotExists,
        [StoreOp.get "a@b.co" "go-serverless"]⟩ :=
  (updateUser_does_not_exist sampleReq "go-serverless" (honestClient emptyDb)
    sampleUser ⟨"", "", ""⟩ rfl rfl rfl).1

/-- Claim C5: on a body decoding to a User whose email fails the
Field Validator, CreateUser fails with invalid-email before any store
interaction: the trace is empty, so neither the existence-check read
nor the write happens and every table state is left unchanged. -/
theorem createUser_invalid_email (req : APIGatewayProxyRequest)
    (tableName : String) (c : DynaClient) (u : User)
    (hb : req.body = Except.ok u) (hv : IsEmailValid u.email = false) :
    CreateUser req tableName c = ⟨none, some UserError.invalidEmail, []⟩ ∧
    ∀ db : String → Option User, runOps db (CreateUser req tableName c).trace = db := by
  have hmain : CreateUser req tableName c =
      ⟨none, some UserError.invalidEmail, []⟩ := by
    unfold CreateUser
    rw [hb]
    simp [hv]
  refine ⟨hmain, fun db => ?_⟩
  rw [hmain]
  rfl

/-- Witness for C5: the body with email "not-an-email" makes Create
fail with invalid-email and touch no store state. -/
theorem createUser_invalid_email_witness :
    CreateUser badEmailReq "go-serverless" (honestClient emptyDb) =
      ⟨none, some UserError.invalidEmail, []⟩ ∧
    runOps emptyDb
      (CreateUser badEmailReq "go-serverless" (honestClient emptyDb)).trace = emptyDb := by
  have h := createUser_invalid_email badEmailReq "go-serverless" (honestClient emptyDb)
    ⟨"not-an-email", "", ""⟩ rfl (by decide)
  exact ⟨h.1, h.2 emptyDb⟩

/-- Claim C7: a valid, previously-absent record created against the
honest store is returned as confirmation, and a FetchUser with the
same email against the store state produced by the issued calls
returns a record equal in all three fields to the one created. -/
theorem create_then_fetch_roundtrip (req : APIGatewayProxyRequest)
    (tableName : String) (db : String → Option User) (u : User)
    (hb : req.body = Except.ok u) (hv : IsEmailValid u.email = true)
    (habs : db u.email = none) :
    CreateUser req tableName (honestClient db) =
      ⟨some u, none,
        [StoreOp.get u.email tableName, StoreOp.put (AttrMap.user u) tableName]⟩ ∧
    (FetchUser u.email tableName (honestClient
        (runOps db (CreateUser req tableName (honestClient db)).trace))).val =
      some u := by
  have hfetch := fetchUser_honest_absent db u.email tableName habs
  have h1 : CreateUser req tableName (honestClient db) =
      ⟨some u, none,
        [StoreOp.get u.email tableName, StoreOp.put (AttrMap.user u) tableName]⟩ := by
    unfold CreateUser
    rw [hb]
    simp [hv, hfetch, alreadyExistsCheck]
    rfl
  refine ⟨h1, ?_⟩
  rw [h1]
  have hpresent : runOps db [StoreOp.get u.email tableName,
      StoreOp.put (AttrMap.user u) tableName] u.email = some u := by
    show (if u.email = u.email then some u else db u.email) = some u
    rw [if_pos rfl]
  rw [fetchUser_honest_present _ _ tableName _ hpresent]

/-- Witness for C7: creating `sampleUser` against the empty honest
store and fetching "a@b.co" from the resulting state returns the full
record created. -/
theorem create_then_fetch_roundtrip_witness :
    CreateUser sampleReq "go-serverless" (honestClient emptyDb) =
      ⟨some sampleUser, none,
        [StoreOp.get "a@b.co" "go-serverless",
          StoreOp.put (AttrMap.user sampleUser) "go-serverless"]⟩ ∧
    (FetchUser "a@b.co" "go-serverless" (honestClient
        (runOps emptyDb
          (CreateUser sampleReq "go-serverless" (honestClient emptyDb)).trace))).val =
      some sampleUser :=
  create_then_fetch_roundtrip sampleReq "go-serverless" emptyDb sampleUser rfl
    (by decide) rfl
